import Mathlib

/-!
Shallow embedding of the scheduling and publishing engine of the
crossposting bot: the post store (`db_manager.py`), the scheduler
(`scheduler.py`: `SchedulerManager`) and the immediate-publish flow
(`analytics.py`: `publish_post_now`).

Time is modelled as `Int` seconds.  The asyncio jobs dictionary
`SchedulerManager.jobs` is an association list from post id to an opaque
handle token; cancelling a handle is recorded as an observable event.
-/

/-- Outcome entry stored per platform in the `results` dictionary of
`publish_post_now`: `{'success': True, 'post_id'/'message_ids': ...}`
or `{'success': False, 'error': ...}`. -/
inductive OutcomeEntry
  | ok (refs : List Nat)
  | err (msg : String)
deriving DecidableEq, Repr

/-- The boolean `results[platform]['success']` field. -/
def OutcomeEntry.success : OutcomeEntry → Bool
  | .ok _ => true
  | .err _ => false

/-- Value of the `results` column: either the per-platform outcome map
written by `publish_post_now`, or the `{'error': str(e)}` dictionary
written by the scheduler's failure handler. -/
inductive ResultsVal
  | perPlatform (entries : List (String × OutcomeEntry))
  | errorInfo (msg : String)
deriving DecidableEq, Repr

/-- A row of the `posts` table (`db_manager.py`, columns used by the
scheduling engine). -/
structure Post where
  id : Nat
  status : String
  schedule_time : Option Int
  published_at : Option Int
  results : Option ResultsVal
  created_at : Option Int
  updated_at : Option Int
deriving DecidableEq, Repr

/-- The `posts` table. -/
abbrev Store := List Post

/-- Embedding of `db_manager.get_post_by_id`: select the row with the given id. -/
def get_post_by_id (store : Store) (post_id : Nat) : Option Post :=
  store.find? (fun p => p.id == post_id)

/-- The keyword arguments accepted by `db_manager.update_post` that the
engine uses; `none` models the keyword being absent from `kwargs`. -/
structure UpdateFields where
  status : Option String
  published_at : Option Int
  results : Option ResultsVal
deriving DecidableEq, Repr

/-- Embedding of `db_manager.update_post` applied to one row: always sets
`updated_at`; if `kwargs` sets status to `'published'` and does not
itself carry `published_at`, the store adds `published_at = utcnow()`. -/
def applyUpdate (now : Int) (fields : UpdateFields) (p : Post) : Post :=
  let fields :=
    if fields.status = some "published" ∧ fields.published_at = none then
      { fields with published_at := some now }
    else fields
  { p with
    status := fields.status.getD p.status
    published_at :=
      match fields.published_at with
      | some t => some t
      | none => p.published_at
    results :=
      match fields.results with
      | some r => some r
      | none => p.results
    updated_at := some now }

/-- Embedding of `db_manager.update_post`: update every row matching the id (the id
is the primary key, so at most one row in a well-formed store). -/
def update_post (store : Store) (post_id : Nat) (fields : UpdateFields) (now : Int) : Store :=
  store.map (fun p => if p.id == post_id then applyUpdate now fields p else p)

/-- Embedding of `db_manager.create_post`: looks up the user (returns `None` when the
user is unknown), otherwise inserts a new row; passing a
`schedule_time` forces status `'scheduled'`. -/
def create_post (store : Store) (nextId : Nat) (userFound : Bool)
    (schedule_time : Option Int) (status : String) (now : Int) : Store × Option Nat :=
  if userFound then
    let st := if schedule_time.isSome then "scheduled" else status
    (store ++ [{ id := nextId, status := st, schedule_time := schedule_time,
                 published_at := none, results := none,
                 created_at := some now, updated_at := some now }], some nextId)
  else (store, none)

/-- The in-memory `SchedulerManager.jobs` dictionary: post id mapped to
the handle token of the pending `asyncio` task. -/
abbrev Jobs := List (Nat × Nat)

/-- Dictionary membership/lookup for `self.jobs`. -/
def lookupJob : Jobs → Nat → Option Nat
  | [], _ => none
  | (k, h) :: rest, i => if k = i then some h else lookupJob rest i

/-- Deletion `del self.jobs[post_id]`. -/
def eraseJob : Jobs → Nat → Jobs
  | [], _ => []
  | (k, h) :: rest, i => if k = i then eraseJob rest i else (k, h) :: eraseJob rest i

/-- Number of entries for a key, to state the at-most-one-handle
invariant. -/
def keyCount (jobs : Jobs) (k : Nat) : Nat :=
  (jobs.filter (fun e => e.1 == k)).length

/-- Observable actions taken by `SchedulerManager.schedule_post`. -/
inductive SchedEvent
  | cancelHandle (handle : Nat)
  | spawnPublishNow (post_id : Nat)
  | registerJob (post_id : Nat) (handle : Nat) (delay : Int)
deriving DecidableEq, Repr

/-- Result of one `schedule_post` call: the new jobs dictionary, the
events in program order, and the Python return value (`none` models the
bare `return` of the already-due branch). -/
structure SchedResult where
  jobs : Jobs
  events : List SchedEvent
  ret : Option Bool
deriving DecidableEq, Repr

/-- Embedding of `SchedulerManager.schedule_post`: cancel and delete any existing
job for the post, compute `delay = schedule_time - now`; if
`delay <= 0` spawn `_publish_post` immediately without registering a
handle, otherwise register a fresh handle for the delayed task. -/
def schedule_post (jobs : Jobs) (post_id : Nat) (schedule_time now : Int)
    (newHandle : Nat) : SchedResult :=
  let cancelEvs :=
    match lookupJob jobs post_id with
    | some h => [SchedEvent.cancelHandle h]
    | none => []
  let jobs1 :=
    match lookupJob jobs post_id with
    | some _ => eraseJob jobs post_id
    | none => jobs
  let delay := schedule_time - now
  if delay ≤ 0 then
    { jobs := jobs1, events := cancelEvs ++ [SchedEvent.spawnPublishNow post_id],
      ret := none }
  else
    { jobs := jobs1 ++ [(post_id, newHandle)],
      events := cancelEvs ++ [SchedEvent.registerJob post_id newHandle delay],
      ret := some true }

/-- Result of `SchedulerManager.cancel_scheduled_post`: the new jobs
dictionary, the handles that received a cancellation signal, the store
(the function performs no database access), and the return value. -/
structure CancelResult where
  jobs : Jobs
  cancelled : List Nat
  store : Store
  ret : Bool
deriving DecidableEq, Repr

/-- Embedding of `SchedulerManager.cancel_scheduled_post`: if a task is registered
for the post, cancel it, delete the entry and return `True`; otherwise
log a warning and return `False`. -/
def cancel_scheduled_post (jobs : Jobs) (store : Store) (post_id : Nat) : CancelResult :=
  match lookupJob jobs post_id with
  | some h =>
    { jobs := eraseJob jobs post_id, cancelled := [h], store := store, ret := true }
  | none =>
    { jobs := jobs, cancelled := [], store := store, ret := false }

/-- SQL `schedule_time > now` on a nullable column (`NULL` never
satisfies the comparison). -/
def timeAfter (t : Option Int) (now : Int) : Bool :=
  match t with
  | some x => now < x
  | none => false

/-- SQL `schedule_time BETWEEN lo AND hi` on a nullable column
(inclusive on both ends, `NULL` never matches). -/
def timeBetween (t : Option Int) (lo hi : Int) : Bool :=
  match t with
  | some x => lo ≤ x ∧ x ≤ hi
  | none => false

/-- The sweep interval `SchedulerManager.check_interval` (seconds). -/
def check_interval : Int := 60

/-- Embedding of `SchedulerManager._load_scheduled_posts`: query the posts with
status `'scheduled'` and `schedule_time > utcnow()`, then schedule each
whose `schedule_time` is still in the future at the (later) loop check.
Returns the ids passed to `schedule_post`, in order. `nowQ` is the
clock at the query, `nowL` at the in-loop re-check. -/
def load_scheduled_posts (store : Store) (nowQ nowL : Int) : List Nat :=
  ((store.filter (fun p => p.status == "scheduled" && timeAfter p.schedule_time nowQ)).filter
    (fun p => timeAfter p.schedule_time nowL)).map (fun p => p.id)

/-- One step of the steady-state sweep loop body: if the post has no
registered job, call `schedule_post` for it (consuming a fresh handle
token), otherwise skip it. -/
def runSweep (now : Int) : List Post → Jobs → Nat → Jobs × Nat × List Nat
  | [], jobs, h => (jobs, h, [])
  | p :: rest, jobs, h =>
    if lookupJob jobs p.id = none then
      let r := schedule_post jobs p.id (p.schedule_time.getD 0) now h
      let out := runSweep now rest r.jobs (h + 1)
      (out.1, out.2.1, p.id :: out.2.2)
    else runSweep now rest jobs h

/-- One cycle of `SchedulerManager._check_scheduled_posts`: select the
posts with status `'scheduled'` and `schedule_time` between `now` and
`now + check_interval`, then schedule those not already in `self.jobs`.
Returns the updated jobs dictionary, the next fresh handle token, and
the ids passed to `schedule_post` in order. -/
def check_scheduled_posts_cycle (store : Store) (jobs : Jobs) (now : Int)
    (h0 : Nat) : Jobs × Nat × List Nat :=
  runSweep now
    (store.filter (fun p =>
      p.status == "scheduled" && timeBetween p.schedule_time now (now + check_interval)))
    jobs h0

/-- Fault injection for `_publish_post`: which of the awaited calls
raises an exception when reached. -/
structure Faults where
  failGet : Bool
  failUpdPublishing : Bool
  failUpdPublished : Bool
  failUpdFailed : Bool
deriving DecidableEq, Repr

/-- Observable result of one `_publish_post` job: the resulting store,
the `update_post` calls issued (in order, including ones that then
raised), and whether an exception escaped the job. -/
structure PublishResult where
  store : Store
  issued : List (Nat × UpdateFields)
  escaped : Bool
deriving DecidableEq, Repr

/-- The `except` clause of `SchedulerManager._publish_post`: attempt a
`status='failed'` update carrying the error text, swallowing any
exception this update itself raises. -/
def publishErrorHandler (store : Store) (post_id : Nat) (now : Int) (f : Faults)
    (issued : List (Nat × UpdateFields)) (msg : String) : PublishResult :=
  let fields : UpdateFields :=
    { status := some "failed", published_at := none,
      results := some (ResultsVal.errorInfo msg) }
  if f.failUpdFailed then
    { store := store, issued := issued ++ [(post_id, fields)], escaped := false }
  else
    { store := update_post store post_id fields now,
      issued := issued ++ [(post_id, fields)], escaped := false }

/-- Embedding of `SchedulerManager._publish_post`: fetch the post; exit silently if
absent or not `'scheduled'`; otherwise set status `'publishing'`, run
the (placeholder) publish step, and set status `'published'` with
`published_at`.  Any exception raised by a store call is caught at the
job boundary and converted into a `'failed'` status update. -/
def publish_post (store : Store) (post_id : Nat) (now : Int) (f : Faults) : PublishResult :=
  if f.failGet then
    publishErrorHandler store post_id now f [] "get_post_by_id raised"
  else
    match get_post_by_id store post_id with
    | none => { store := store, issued := [], escaped := false }
    | some post =>
      if post.status ≠ "scheduled" then
        { store := store, issued := [], escaped := false }
      else
        let f1 : UpdateFields :=
          { status := some "publishing", published_at := none, results := none }
        if f.failUpdPublishing then
          publishErrorHandler store post_id now f [(post_id, f1)] "update_post raised"
        else
          let store1 := update_post store post_id f1 now
          let f2 : UpdateFields :=
            { status := some "published", published_at := some now, results := none }
          if f.failUpdPublished then
            publishErrorHandler store1 post_id now f [(post_id, f1), (post_id, f2)]
              "update_post raised"
          else
            { store := update_post store1 post_id f2 now,
              issued := [(post_id, f1), (post_id, f2)], escaped := false }

/-- Inputs of `publish_post_now` (`analytics.py`): the drafted content,
the chosen platforms, the outcome each platform manager would return,
and whether the calling user exists in the `users` table. -/
structure PublishNowInput where
  post_text : String
  media_files : List Nat
  platforms : List String
  vkOutcome : Except String Nat
  tgOutcome : Except String (List Nat)
  userFound : Bool
deriving Repr

/-- The per-platform `results` dictionary built by `publish_post_now`:
an entry for `'vk'` and/or `'telegram'` when requested, successful
unless the platform manager raised. -/
def aggregateResults (inp : PublishNowInput) : List (String × OutcomeEntry) :=
  (if inp.platforms.contains "vk" then
    [("vk",
      match inp.vkOutcome with
      | .ok pid => OutcomeEntry.ok [pid]
      | .error e => OutcomeEntry.err e)]
  else []) ++
  (if inp.platforms.contains "telegram" then
    [("telegram",
      match inp.tgOutcome with
      | .ok ids => OutcomeEntry.ok ids
      | .error e => OutcomeEntry.err e)]
  else [])

/-- The count `success_count = sum(1 for platform in results if
results[platform]['success'])`. -/
def successCount (inp : PublishNowInput) : Nat :=
  ((aggregateResults inp).filter (fun e => e.2.success)).length

/-- The platforms whose entry in `results` is successful (what the
spec calls the set `S`). -/
def successfulPlatforms (inp : PublishNowInput) : List String :=
  ((aggregateResults inp).filter (fun e => e.2.success)).map (fun e => e.1)

/-- Observable result of `publish_post_now`: the resulting store, the
id of the created post (when creation succeeded), and the
`start_tracking(post_id, platforms)` call when one was made. -/
structure PubNowResult where
  store : Store
  created : Option Nat
  tracking : Option (Option Nat × List String)
deriving Repr

/-- Embedding of `publish_post_now` (`analytics.py`): validate the draft, create a
`'publishing'` record, publish on each requested platform isolating
per-platform errors, aggregate `results`, set final status
`'published'` when at least one platform succeeded else `'failed'`,
persist status and results in a single `update_post` call, and start
tracking (with the full requested platform list) when at least one
platform succeeded. -/
def publish_post_now (store : Store) (nextId : Nat) (inp : PublishNowInput)
    (now : Int) : PubNowResult :=
  if inp.post_text = "" ∧ inp.media_files = [] then
    { store := store, created := none, tracking := none }
  else if inp.platforms = [] then
    { store := store, created := none, tracking := none }
  else
    let (store1, postId?) :=
      create_post store nextId inp.userFound none "publishing" now
    let results := aggregateResults inp
    let status := if successCount inp > 0 then "published" else "failed"
    let fields : UpdateFields :=
      { status := some status, published_at := none,
        results := some (ResultsVal.perPlatform results) }
    let store2 :=
      match postId? with
      | some pid => update_post store1 pid fields now
      | none => store1
    let tracking :=
      if successCount inp > 0 then some (postId?, inp.platforms) else none
    { store := store2, created := postId?, tracking := tracking }

/-- Modelled from the spec: the adaptive next-wake delay of the
tracking loop (`AnalyticsManager`, `modules/analytics.py`, not part of
the provided sources).  Age and delay are in seconds; buckets are
chosen from the largest bound down with strict greater-than
comparisons: over 7 days gives 12 hours, over 3 days gives 6 hours,
over 1 day gives 3 hours, otherwise the 1 hour base interval. -/
def trackingDelay (age : Int) : Int :=
  if age > 7 * 86400 then 12 * 3600
  else if age > 3 * 86400 then 6 * 3600
  else if age > 1 * 86400 then 3 * 3600
  else 3600

/-- Concrete already-due post used as counterexample input for the
startup and sweep claims. -/
def pastDuePost : Post :=
  { id := 1, status := "scheduled", schedule_time := some (-10),
    published_at := none, results := none,
    created_at := some (-100), updated_at := some (-100) }

/-- Concrete `publish_post_now` input with one succeeding (vk) and one
failing (telegram) platform. -/
def mixedInput : PublishNowInput :=
  { post_text := "hello", media_files := [], platforms := ["vk", "telegram"],
    vkOutcome := Except.ok 101, tgOutcome := Except.error "telegram down",
    userFound := true }

/-- Repeated `schedule_post` calls for one post id, threading the jobs
dictionary. -/
def scheduleCalls (post_id : Nat) : List (Int × Int × Nat) → Jobs → Jobs
  | [], jobs => jobs
  | (st, nw, h) :: rest, jobs =>
    scheduleCalls post_id rest (schedule_post jobs post_id st nw h).jobs

/-- The `{'error': str(e)}` update issued by the scheduler's failure
handler. -/
def failedFields (msg : String) : UpdateFields :=
  { status := some "failed", published_at := none,
    results := some (ResultsVal.errorInfo msg) }

/-- Concrete already-published post used in the guard-exit witness. -/
def publishedPost2 : Post :=
  { id := 2, status := "published", schedule_time := none,
    published_at := some 5, results := none, created_at := some 0,
    updated_at := some 5 }

/-- Concrete scheduled post used in the fault-containment witness. -/
def scheduledPost4 : Post :=
  { id := 4, status := "scheduled", schedule_time := some 10,
    published_at := none, results := none, created_at := some 0,
    updated_at := some 0 }

/-- Fault vector with no call raising. -/
def noFaults : Faults :=
  { failGet := false, failUpdPublishing := false,
    failUpdPublished := false, failUpdFailed := false }

/-- Fault vector where only the `'published'`-status update raises. -/
def publishedUpdFault : Faults :=
  { failGet := false, failUpdPublishing := false,
    failUpdPublished := true, failUpdFailed := false }

/-- Concrete scheduled post inside the sweep window (due in 30s). -/
def windowPost : Post :=
  { id := 6, status := "scheduled", schedule_time := some 30,
    published_at := none, results := none, created_at := some 0,
    updated_at := some 0 }

/-- The row inserted by `create_post` for an immediate publish
(`schedule_time=None`, `status='publishing'`). -/
def newPost (nextId : Nat) (now : Int) : Post :=
  { id := nextId, status := "publishing", schedule_time := none,
    published_at := none, results := none, created_at := some now,
    updated_at := some now }

theorem lookup_eraseJob_self (jobs : Jobs) (i : Nat) :
    lookupJob (eraseJob jobs i) i = none := by
  induction jobs with
  | nil => rfl
  | cons e rest ih =>
    obtain ⟨k, h⟩ := e
    by_cases hk : k = i
    · simpa [eraseJob, hk] using ih
    · simpa [eraseJob, lookupJob, hk] using ih

theorem lookup_eraseJob_ne (jobs : Jobs) (i k : Nat) (hk : k ≠ i) :
    lookupJob (eraseJob jobs i) k = lookupJob jobs k := by
  induction jobs with
  | nil => rfl
  | cons e rest ih =>
    obtain ⟨j, h⟩ := e
    simp only [eraseJob, lookupJob]
    by_cases hj : j = i
    · have hjk : ¬j = k := by omega
      rw [if_pos hj, if_neg hjk, ih]
    · rw [if_neg hj]
      by_cases hjk : j = k
      · simp only [lookupJob, if_pos hjk]
      · simp only [lookupJob, if_neg hjk, ih]

theorem lookup_none_keyCount (jobs : Jobs) (k : Nat)
    (h : lookupJob jobs k = none) : keyCount jobs k = 0 := by
  induction jobs with
  | nil => rfl
  | cons e rest ih =>
    obtain ⟨j, hd⟩ := e
    by_cases hj : j = k
    · simp [lookupJob, hj] at h
    · simp [lookupJob, hj] at h
      simpa [keyCount, hj] using ih h

theorem keyCount_eraseJob_self (jobs : Jobs) (k : Nat) :
    keyCount (eraseJob jobs k) k = 0 := by
  induction jobs with
  | nil => rfl
  | cons e rest ih =>
    obtain ⟨j, hd⟩ := e
    by_cases hj : j = k
    · simpa [eraseJob, hj] using ih
    · simpa [eraseJob, keyCount, hj] using ih

theorem keyCount_append_single (jobs : Jobs) (k h : Nat) :
    keyCount (jobs ++ [(k, h)]) k = keyCount jobs k + 1 := by
  simp [keyCount, List.filter_append]

/-- C9: the tracking loop's next-wake delay is a total function of
entity age with strict greater-than boundaries: age over 7 days gives
12 hours, else over 3 days gives 6 hours, else over 1 day gives 3
hours, otherwise the 1 hour base interval; in particular age exactly
24h falls in the 1h bucket and age exactly 7d in the 6h bucket. -/
theorem trackingDelay_buckets :
    (∀ age : Int, age > 7 * 86400 → trackingDelay age = 12 * 3600) ∧
    (∀ age : Int, age ≤ 7 * 86400 → age > 3 * 86400 → trackingDelay age = 6 * 3600) ∧
    (∀ age : Int, age ≤ 3 * 86400 → age > 1 * 86400 → trackingDelay age = 3 * 3600) ∧
    (∀ age : Int, age ≤ 1 * 86400 → trackingDelay age = 3600) ∧
    trackingDelay 86400 = 3600 ∧ trackingDelay (7 * 86400) = 6 * 3600 := by
  refine ⟨?_, ?_, ?_, ?_, by decide, by decide⟩ <;>
    intro age <;> intros <;> unfold trackingDelay <;> split_ifs <;> omega

/-- Witness for C9 at concrete ages. -/
theorem trackingDelay_buckets_witness : trackingDelay (8 * 86400) = 12 * 3600 :=
  trackingDelay_buckets.1 (8 * 86400) (by decide)

/-- C8: cancelling a post with no registered job leaves the jobs
dictionary and the store unchanged, signals no handle and returns
`False` (no error); cancelling a present key removes exactly that
entry (its key resolves to nothing afterwards, every other key is
untouched) and returns `True`. -/
theorem cancel_scheduled_post_spec (jobs : Jobs) (store : Store) (post_id : Nat) :
    (lookupJob jobs post_id = none →
      cancel_scheduled_post jobs store post_id =
        { jobs := jobs, cancelled := [], store := store, ret := false }) ∧
    (∀ h, lookupJob jobs post_id = some h →
      (cancel_scheduled_post jobs store post_id).jobs = eraseJob jobs post_id ∧
      (cancel_scheduled_post jobs store post_id).store = store ∧
      (cancel_scheduled_post jobs store post_id).cancelled = [h] ∧
      (cancel_scheduled_post jobs store post_id).ret = true ∧
      lookupJob (cancel_scheduled_post jobs store post_id).jobs post_id = none ∧
      ∀ k, k ≠ post_id →
        lookupJob (cancel_scheduled_post jobs store post_id).jobs k = lookupJob jobs k) := by
  constructor
  · intro h
    simp [cancel_scheduled_post, h]
  · intro h hh
    refine ⟨?_, ?_, ?_, ?_, ?_, ?_⟩ <;>
      simp [cancel_scheduled_post, hh, lookup_eraseJob_self]
    exact fun k hk => lookup_eraseJob_ne jobs post_id k hk

/-- Witness for C8: cancelling post 7 on an empty registry is a no-op
returning `False`, and cancelling a present post 5 removes it. -/
theorem cancel_scheduled_post_spec_witness :
    cancel_scheduled_post [] [] 7 = { jobs := [], cancelled := [], store := [], ret := false } ∧
    (cancel_scheduled_post [(5, 9)] [] 5).ret = true :=
  ⟨(cancel_scheduled_post_spec [] [] 7).1 rfl,
    ((cancel_scheduled_post_spec [(5, 9)] [] 5).2 9 rfl).2.2.2.1⟩

/-- C10: when `schedule_post` is called with a schedule time at or
before the current time, it spawns the immediate publish task without
registering any handle, so right after the call the jobs dictionary has
no entry for the post and a subsequent `cancel_scheduled_post` finds no
task and returns `False`. -/
theorem schedule_post_past_due (jobs : Jobs) (store : Store) (post_id : Nat)
    (schedule_time now : Int) (newHandle : Nat) (hd : schedule_time ≤ now) :
    SchedEvent.spawnPublishNow post_id ∈
      (schedule_post jobs post_id schedule_time now newHandle).events ∧
    lookupJob (schedule_post jobs post_id schedule_time now newHandle).jobs post_id = none ∧
    cancel_scheduled_post (schedule_post jobs post_id schedule_time now newHandle).jobs
        store post_id =
      { jobs := (schedule_post jobs post_id schedule_time now newHandle).jobs,
        cancelled := [], store := store, ret := false } := by
  have hdelay : schedule_time - now ≤ 0 := by omega
  have hjobs1 : lookupJob (schedule_post jobs post_id schedule_time now newHandle).jobs
      post_id = none := by
    unfold schedule_post
    rw [if_pos hdelay]
    cases hl : lookupJob jobs post_id with
    | none => simp [hl]
    | some h => simp [hl, lookup_eraseJob_self]
  refine ⟨?_, hjobs1, ?_⟩
  · unfold schedule_post
    rw [if_pos hdelay]
    cases hl : lookupJob jobs post_id <;> simp [hl]
  · simp [cancel_scheduled_post, hjobs1]

/-- Witness for C10 at a concrete already-due call. -/
theorem schedule_post_past_due_witness :
    SchedEvent.spawnPublishNow 3 ∈ (schedule_post [(3, 8)] 3 (-5) 0 20).events ∧
    lookupJob (schedule_post [(3, 8)] 3 (-5) 0 20).jobs 3 = none ∧
    cancel_scheduled_post (schedule_post [(3, 8)] 3 (-5) 0 20).jobs [] 3 =
      { jobs := (schedule_post [(3, 8)] 3 (-5) 0 20).jobs,
        cancelled := [], store := [], ret := false } :=
  schedule_post_past_due [(3, 8)] [] 3 (-5) 0 20 (by decide)

/-- C6: when the publish job fires for a post that is absent from the
store or whose status is no longer `'scheduled'`, and the fetch itself
does not raise, the job exits with the store untouched, issuing no
update call and letting no exception escape. -/
theorem publish_post_guard_exit (store : Store) (post_id : Nat) (now : Int) (f : Faults)
    (hget : f.failGet = false)
    (hguard : get_post_by_id store post_id = none ∨
      ∃ p, get_post_by_id store post_id = some p ∧ p.status ≠ "scheduled") :
    publish_post store post_id now f =
      { store := store, issued := [], escaped := false } := by
  unfold publish_post
  rcases hguard with h | ⟨p, hp, hs⟩
  · simp [hget, h]
  · simp [hget, hp, hs]

/-- Witness for C6: firing for post 2 on a store holding only a
`'published'` post 2 leaves everything unchanged. -/
theorem publish_post_guard_exit_witness :
    publish_post [publishedPost2] 2 10 noFaults =
      { store := [publishedPost2], issued := [], escaped := false } :=
  publish_post_guard_exit [publishedPost2] 2 10 noFaults rfl
    (Or.inr ⟨publishedPost2, by decide, by decide⟩)

/-- C7: when the guard passes and one of the store calls of the publish
sequence raises, the job boundary catches the exception — nothing
escapes — and issues an `update_post` call setting status `'failed'`. -/
theorem publish_post_fault_contained (store : Store) (post_id : Nat) (now : Int)
    (f : Faults) (p : Post)
    (hget : f.failGet = false)
    (hp : get_post_by_id store post_id = some p)
    (hs : p.status = "scheduled")
    (hfault : f.failUpdPublishing = true ∨ f.failUpdPublished = true) :
    (publish_post store post_id now f).escaped = false ∧
    ∃ fields, (post_id, fields) ∈ (publish_post store post_id now f).issued ∧
      fields.status = some "failed" := by
  unfold publish_post
  have hone : f.failUpdPublishing = true ∨
      (f.failUpdPublishing = false ∧ f.failUpdPublished = true) := by
    rcases hfault with h | h
    · exact Or.inl h
    · rcases Bool.eq_false_or_eq_true f.failUpdPublishing with h1 | h1
      · exact Or.inl h1
      · exact Or.inr ⟨h1, h⟩
  rcases hone with h1 | ⟨h1, h2⟩
  · simp only [hget, Bool.false_eq_true, if_false, hp, hs, ne_eq,
      not_true_eq_false, if_false, h1, if_true, publishErrorHandler]
    refine ⟨by split <;> rfl, failedFields "update_post raised", ?_, rfl⟩
    split <;> simp [failedFields]
  · simp only [hget, Bool.false_eq_true, if_false, hp, hs, ne_eq,
      not_true_eq_false, if_false, h1, h2, if_true, publishErrorHandler]
    refine ⟨by split <;> rfl, failedFields "update_post raised", ?_, rfl⟩
    split <;> simp [failedFields]

/-- Witness for C7: with the `'published'`-status update raising, the
job reports no escaped exception and issues a `'failed'` update. -/
theorem publish_post_fault_contained_witness :
    (publish_post [scheduledPost4] 4 10 publishedUpdFault).escaped = false ∧
    ∃ fields, (4, fields) ∈ (publish_post [scheduledPost4] 4 10 publishedUpdFault).issued ∧
      fields.status = some "failed" :=
  publish_post_fault_contained [scheduledPost4] 4 10 publishedUpdFault scheduledPost4
    rfl (by decide) (by decide) (Or.inr rfl)

theorem timeAfter_eq_true_iff (t : Option Int) (now : Int) :
    timeAfter t now = true ↔ ∃ x, t = some x ∧ now < x := by
  cases t with
  | none => simp [timeAfter]
  | some x => simp [timeAfter]

/-- C1 counterexample: at engine start (clock 0) a post with status
`'scheduled'` and `schedule_time` already past (-10) is not passed to
`schedule_post` by the startup pass — the startup query and loop both
require `schedule_time` strictly in the future. -/
theorem load_scheduled_posts_skips_past_due :
    pastDuePost.status = "scheduled" ∧
    load_scheduled_posts [pastDuePost] 0 0 = [] := by
  decide

/-- C1 amended: the startup reconciliation schedules exactly those
posts whose status is `'scheduled'` and whose `schedule_time` is
strictly in the future at both the query and the per-post loop check;
already-due posts are skipped. -/
theorem load_scheduled_posts_spec (store : Store) (nowQ nowL : Int) (pid : Nat) :
    pid ∈ load_scheduled_posts store nowQ nowL ↔
      ∃ p, p ∈ store ∧ p.id = pid ∧ p.status = "scheduled" ∧
        ∃ t, p.schedule_time = some t ∧ nowQ < t ∧ nowL < t := by
  constructor
  · intro hmem
    rcases List.mem_map.mp hmem with ⟨p, hp, hid⟩
    rcases List.mem_filter.mp hp with ⟨hp2, hl⟩
    rcases List.mem_filter.mp hp2 with ⟨hmem2, hq⟩
    rw [Bool.and_eq_true, beq_iff_eq] at hq
    obtain ⟨hstat, hq⟩ := hq
    rcases (timeAfter_eq_true_iff _ _).mp hq with ⟨t, ht, htq⟩
    rcases (timeAfter_eq_true_iff _ _).mp hl with ⟨t2, ht2, htl⟩
    rw [ht] at ht2
    injection ht2 with he
    subst he
    exact ⟨p, hmem2, hid, hstat, t, ht, htq, htl⟩
  · rintro ⟨p, hmem, hid, hstat, t, ht, hq, hl⟩
    refine List.mem_map.mpr ⟨p, List.mem_filter.mpr ⟨List.mem_filter.mpr ⟨hmem, ?_⟩, ?_⟩, hid⟩
    · rw [Bool.and_eq_true, beq_iff_eq]
      exact ⟨hstat, (timeAfter_eq_true_iff _ _).mpr ⟨t, ht, hq⟩⟩
    · exact (timeAfter_eq_true_iff _ _).mpr ⟨t, ht, hl⟩

/-- C5 counterexample: with platforms vk and telegram, vk succeeding
and telegram failing, the tracking job is started for the full
requested list, not only for the successful set (which is just vk). -/
theorem publish_post_now_tracks_failed_platforms :
    (publish_post_now [] 1 mixedInput 0).tracking = some (some 1, ["vk", "telegram"]) ∧
    successfulPlatforms mixedInput = ["vk"] ∧
    (["vk", "telegram"] : List String) ≠ ["vk"] := by
  refine ⟨by decide, by decide, by decide⟩

/-- C5 amended: whenever at least one platform succeeds (and the draft
passed validation), `publish_post_now` starts tracking for the full
requested platform list — failed platforms included — not only for
the successful subset. -/
theorem publish_post_now_tracking_all_requested (store : Store) (nextId : Nat)
    (inp : PublishNowInput) (now : Int)
    (hcontent : ¬(inp.post_text = "" ∧ inp.media_files = []))
    (hplat : inp.platforms ≠ [])
    (hsucc : 0 < successCount inp) :
    (publish_post_now store nextId inp now).tracking =
      some ((publish_post_now store nextId inp now).created, inp.platforms) := by
  rcases hcp : create_post store nextId inp.userFound none "publishing" now with ⟨s1, pid⟩
  simp only [publish_post_now, hcp]
  simp [hcontent, hplat, hsucc]

/-- Witness for C5 amended at the mixed-outcome input. -/
theorem publish_post_now_tracking_all_requested_witness :
    (publish_post_now [] 1 mixedInput 0).tracking =
      some ((publish_post_now [] 1 mixedInput 0).created, mixedInput.platforms) :=
  publish_post_now_tracking_all_requested [] 1 mixedInput 0 (by decide) (by decide)
    (by decide)

theorem schedule_post_keyCount (jobs : Jobs) (post_id : Nat) (st nw : Int) (h : Nat) :
    keyCount (schedule_post jobs post_id st nw h).jobs post_id ≤ 1 := by
  simp only [schedule_post]
  cases hl : lookupJob jobs post_id with
  | none =>
    have h0 := lookup_none_keyCount jobs post_id hl
    split <;> simp [h0, keyCount_append_single]
  | some hdl =>
    split <;> simp [keyCount_eraseJob_self, keyCount_append_single]

theorem scheduleCalls_keyCount (post_id : Nat) (calls : List (Int × Int × Nat))
    (jobs : Jobs) (hinv : keyCount jobs post_id ≤ 1) :
    keyCount (scheduleCalls post_id calls jobs) post_id ≤ 1 := by
  induction calls generalizing jobs with
  | nil => exact hinv
  | cons c rest ih =>
    obtain ⟨st, nw, h⟩ := c
    exact ih _ (schedule_post_keyCount jobs post_id st nw h)

/-- C3: after any sequence of `schedule_post` calls for one post, at
most one handle is registered for it in the jobs dictionary; and every
call that finds an existing handle first cancels it (the cancellation
is the first event of the call) and removes it from the dictionary, so
the removal precedes the insertion of the new handle. -/
theorem schedule_post_registry_invariant (post_id : Nat)
    (calls : List (Int × Int × Nat)) (jobs : Jobs)
    (hinv : keyCount jobs post_id ≤ 1) :
    keyCount (scheduleCalls post_id calls jobs) post_id ≤ 1 ∧
    ∀ st nw h hdl, lookupJob jobs post_id = some hdl →
      (schedule_post jobs post_id st nw h).events.head? =
        some (SchedEvent.cancelHandle hdl) ∧
      lookupJob (eraseJob jobs post_id) post_id = none := by
  refine ⟨scheduleCalls_keyCount post_id calls jobs hinv, ?_⟩
  intro st nw h hdl hl
  refine ⟨?_, lookup_eraseJob_self jobs post_id⟩
  simp only [schedule_post, hl]
  split <;> rfl

/-- Witness for C3: two successive reschedules of post 3 on a registry
already holding a handle for it. -/
theorem schedule_post_registry_invariant_witness :
    keyCount (scheduleCalls 3 [(100, 0, 11), (200, 0, 12)] [(3, 8)]) 3 ≤ 1 ∧
    ∀ st nw h hdl, lookupJob [(3, 8)] 3 = some hdl →
      (schedule_post [(3, 8)] 3 st nw h).events.head? =
        some (SchedEvent.cancelHandle hdl) ∧
      lookupJob (eraseJob [(3, 8)] 3) 3 = none :=
  schedule_post_registry_invariant 3 [(100, 0, 11), (200, 0, 12)] [(3, 8)] (by decide)

theorem lookup_append_single_ne (jobs : Jobs) (i h k : Nat) (hk : k ≠ i) :
    lookupJob (jobs ++ [(i, h)]) k = lookupJob jobs k := by
  induction jobs with
  | nil =>
    have : ¬i = k := fun he => hk he.symm
    simp [lookupJob, this]
  | cons e rest ih =>
    obtain ⟨j, g⟩ := e
    by_cases hj : j = k <;> simp [lookupJob, hj, ih]

theorem lookup_schedule_post_other (jobs : Jobs) (post_id : Nat) (st nw : Int)
    (h k : Nat) (hk : k ≠ post_id) :
    lookupJob (schedule_post jobs post_id st nw h).jobs k = lookupJob jobs k := by
  simp only [schedule_post]
  cases hl : lookupJob jobs post_id with
  | none => split <;> simp [lookup_append_single_ne jobs post_id h k hk]
  | some hdl =>
    split <;>
      simp [lookup_append_single_ne _ post_id h k hk,
        lookup_eraseJob_ne jobs post_id k hk]

theorem runSweep_fired_mem (now : Int) (l : List Post) (jobs : Jobs) (h0 : Nat) (x : Nat)
    (hx : x ∈ (runSweep now l jobs h0).2.2) : x ∈ l.map Post.id := by
  induction l generalizing jobs h0 with
  | nil => simp [runSweep] at hx
  | cons p rest ih =>
    simp only [runSweep] at hx
    split at hx
    · rcases List.mem_cons.mp hx with he | hr
      · simp [he]
      · exact List.mem_cons_of_mem _ (ih _ _ hr)
    · exact List.mem_cons_of_mem _ (ih _ _ hx)

theorem runSweep_count_one (now : Int) (l : List Post) (jobs : Jobs) (h0 : Nat) (p : Post)
    (hnodup : (l.map Post.id).Nodup) (hmem : p ∈ l)
    (hnojob : lookupJob jobs p.id = none) :
    ((runSweep now l jobs h0).2.2).count p.id = 1 := by
  induction l generalizing jobs h0 with
  | nil => cases hmem
  | cons q rest ih =>
    rw [List.map_cons, List.nodup_cons] at hnodup
    obtain ⟨hqid, hnd⟩ := hnodup
    rcases List.mem_cons.mp hmem with he | hp
    · subst he
      simp only [runSweep, hnojob, if_pos]
      rw [List.count_cons_self]
      have hnot : p.id ∉
          (runSweep now rest
            (schedule_post jobs p.id (p.schedule_time.getD 0) now h0).jobs
            (h0 + 1)).2.2 :=
        fun hc => hqid (runSweep_fired_mem now rest _ _ p.id hc)
      rw [List.count_eq_zero.mpr hnot]
    · have hne : p.id ≠ q.id :=
        fun he => hqid (he ▸ List.mem_map_of_mem Post.id hp)
      simp only [runSweep]
      split
      · rw [List.count_cons_of_ne hne]
        refine ih _ _ hnd hp ?_
        rw [lookup_schedule_post_other jobs q.id (q.schedule_time.getD 0) now _ p.id hne]
        exact hnojob
      · exact ih _ _ hnd hp hnojob

theorem timeBetween_eq_true_iff (t : Option Int) (lo hi : Int) :
    timeBetween t lo hi = true ↔ ∃ x, t = some x ∧ lo ≤ x ∧ x ≤ hi := by
  cases t with
  | none => simp [timeBetween]
  | some x => simp [timeBetween]

/-- C2 counterexample: a post with status `'scheduled'`, schedule_time
already past (-10 at clock 0) and no registered handle is not selected
by the sweep cycle — the BETWEEN window starts at `now` — so it is
fired zero times, not exactly once. -/
theorem sweep_skips_past_due :
    pastDuePost.status = "scheduled" ∧
    lookupJob [] pastDuePost.id = none ∧
    (check_scheduled_posts_cycle [pastDuePost] [] 0 0).2.2 = [] := by
  decide

/-- C2 amended: a post with status `'scheduled'`, `schedule_time`
within `[now, now + check_interval]` and no handle registered for its
id is passed to `schedule_post` exactly once by the sweep cycle;
already-due posts fall outside the window and are not fired. -/
theorem sweep_fires_in_window_once (store : Store) (jobs : Jobs) (now : Int) (h0 : Nat)
    (p : Post) (hmem : p ∈ store)
    (hnodup : (store.map Post.id).Nodup)
    (hstatus : p.status = "scheduled")
    (ht : ∃ t, p.schedule_time = some t ∧ now ≤ t ∧ t ≤ now + check_interval)
    (hnojob : lookupJob jobs p.id = none) :
    ((check_scheduled_posts_cycle store jobs now h0).2.2).count p.id = 1 := by
  obtain ⟨t, ht1, ht2, ht3⟩ := ht
  apply runSweep_count_one
  · exact hnodup.sublist ((List.filter_sublist store).map Post.id)
  · refine List.mem_filter.mpr ⟨hmem, ?_⟩
    rw [Bool.and_eq_true, beq_iff_eq]
    exact ⟨hstatus, (timeBetween_eq_true_iff _ _ _).mpr ⟨t, ht1, ht2, ht3⟩⟩
  · exact hnojob

/-- Witness for C2 amended: a lone scheduled post due in 30s with an
empty registry is fired exactly once by the sweep. -/
theorem sweep_fires_in_window_once_witness :
    ((check_scheduled_posts_cycle [windowPost] [] 0 0).2.2).count windowPost.id = 1 :=
  sweep_fires_in_window_once [windowPost] [] 0 0 windowPost (by decide) (by decide)
    (by decide) ⟨30, by decide, by decide, by decide⟩ (by decide)

theorem applyUpdate_id (now : Int) (fields : UpdateFields) (p : Post) :
    (applyUpdate now fields p).id = p.id := rfl

theorem get_post_by_id_update (store : Store) (pid : Nat) (fields : UpdateFields)
    (now : Int) :
    get_post_by_id (update_post store pid fields now) pid =
      Option.map (applyUpdate now fields) (get_post_by_id store pid) := by
  induction store with
  | nil => rfl
  | cons p rest ih =>
    simp only [update_post, get_post_by_id, List.map_cons] at *
    by_cases hp : p.id = pid
    · simp [List.find?, hp, applyUpdate_id]
    · have hb : (p.id == pid) = false := beq_false_of_ne hp
      rw [show (if (p.id == pid) = true then applyUpdate now fields p else p) = p from
        by simp [hb]]
      simp only [List.find?, hb, cond_false]
      exact ih

theorem get_post_by_id_append_none (s1 s2 : Store) (pid : Nat)
    (h : ∀ p ∈ s1, p.id ≠ pid) :
    get_post_by_id (s1 ++ s2) pid = get_post_by_id s2 pid := by
  induction s1 with
  | nil => rfl
  | cons p rest ih =>
    have hb : (p.id == pid) = false := beq_false_of_ne (h p (List.mem_cons_self p rest))
    simp only [get_post_by_id, List.cons_append, List.find?, hb, cond_false]
    exact ih fun q hq => h q (List.mem_cons_of_mem p hq)

/-- C4: when the draft passes validation and the calling user exists,
every `publish_post_now` run persists to the store a row whose final
status is `'published'` exactly when at least one platform outcome in
the aggregated results succeeded (else `'failed'`), whose `results`
column is that per-platform map, and which carries a `published_at`
timestamp whenever at least one platform succeeded. -/
theorem publish_post_now_aggregation (store : Store) (nextId : Nat)
    (inp : PublishNowInput) (now : Int)
    (hcontent : ¬(inp.post_text = "" ∧ inp.media_files = []))
    (hplat : inp.platforms ≠ [])
    (huser : inp.userFound = true)
    (hfresh : ∀ p ∈ store, p.id ≠ nextId) :
    ∃ p, get_post_by_id (publish_post_now store nextId inp now).store nextId = some p ∧
      (p.status = "published" ↔ 0 < successCount inp) ∧
      (p.status = "published" ∨ p.status = "failed") ∧
      p.results = some (ResultsVal.perPlatform (aggregateResults inp)) ∧
      (0 < successCount inp → p.published_at = some now) := by
  have hcp : create_post store nextId inp.userFound none "publishing" now =
      (store ++ [newPost nextId now], some nextId) := by
    simp [create_post, huser, newPost]
  simp only [publish_post_now, hcp, if_neg hcontent, if_neg hplat]
  rw [get_post_by_id_update,
    get_post_by_id_append_none store [newPost nextId now] nextId hfresh]
  have hfind : get_post_by_id [newPost nextId now] nextId = some (newPost nextId now) := by
    simp [get_post_by_id, newPost]
  rw [hfind]
  by_cases hs : 0 < successCount inp
  · refine ⟨_, rfl, ?_, ?_, ?_, ?_⟩ <;>
      simp [hs, applyUpdate, newPost]
  · refine ⟨_, rfl, ?_, ?_, ?_, ?_⟩ <;>
      simp [hs, applyUpdate, newPost]

/-- Witness for C4 at the mixed-outcome input: the stored row is
`'published'` with the aggregated results and a publish timestamp. -/
theorem publish_post_now_aggregation_witness :
    ∃ p, get_post_by_id (publish_post_now [] 1 mixedInput 0).store 1 = some p ∧
      (p.status = "published" ↔ 0 < successCount mixedInput) ∧
      (p.status = "published" ∨ p.status = "failed") ∧
      p.results = some (ResultsVal.perPlatform (aggregateResults mixedInput)) ∧
      (0 < successCount mixedInput → p.published_at = some 0) :=
  publish_post_now_aggregation [] 1 mixedInput 0 (by decide) (by decide) (by decide)
    (by simp)
